import Mathlib

/-!
Shallow embedding of the docker-code-runner service (src/app.js): the
language catalog, the POST /run admission handler, the worker's artifact
naming, command-template expansion, docker invocation, outcome
classification, and cleanup.  Pure string/list functions model the
JavaScript string operations; the external sandbox invocation is modelled
by an explicit result value fed to the classifier.
-/

/-- Does the pattern (first argument) occur at the head of the subject
(second argument)?  Character-by-character comparison, as in a textual
prefix test. -/
def startsWithL : List Char → List Char → Bool
  | [], _ => true
  | _ :: _, [] => false
  | p :: ps, c :: cs => p == c && startsWithL ps cs

/-- JavaScript `subject.includes(pattern)`: the pattern occurs at some
position of the subject. -/
def containsL : List Char → List Char → Bool
  | [], pat => startsWithL pat []
  | c :: rest, pat => startsWithL pat (c :: rest) || containsL rest pat

/-- JavaScript `s.includes(pat)` on strings. -/
def strContains (s pat : String) : Bool := containsL s.data pat.data

/-- JavaScript `s.startsWith(p)`: p is a textual prefix of s. -/
def strStartsWith (p s : String) : Bool := startsWithL p.data s.data

/-- JavaScript `subject.replaceAll(p0 :: ps, rep)` for a non-empty string
pattern: replace every non-overlapping occurrence, scanning left to right;
after a match, scanning resumes after the replaced occurrence. -/
def replaceAllNE (p0 : Char) (ps : List Char) (rep : List Char) : List Char → List Char
  | [] => []
  | c :: rest =>
    if startsWithL (p0 :: ps) (c :: rest) then
      rep ++ replaceAllNE p0 ps rep (List.drop ps.length rest)
    else
      c :: replaceAllNE p0 ps rep rest
termination_by s => s.length
decreasing_by
  · simp only [List.length_drop, List.length_cons]
    omega
  · simp only [List.length_cons]
    omega

/-- JavaScript `s.replaceAll(pat, rep)` on strings.  The only patterns the
program uses are the placeholder literals, all non-empty; an empty pattern
is returned unchanged. -/
def replaceAllStr (s pat rep : String) : String :=
  match pat.data with
  | [] => s
  | p0 :: ps => String.mk (replaceAllNE p0 ps rep.data s.data)

-- Basic sanity examples (structural definitions evaluate).
example : startsWithL ['a', 'b'] ['a', 'b', 'c'] = true := rfl
example : containsL ['x', 'a', 'b'] ['a', 'b'] = true := rfl
example : strContains "hello" "ell" = true := rfl
example : strStartsWith "he" "hello" = true := rfl

/-! ## Configuration constants (src/app.js lines 14-20, 353) -/

/-- `const VOLUME_NAME = 'code_execution_volume'` -/
def VOLUME_NAME : String := "code_execution_volume"

/-- `const CODE_DIR = path.join(__dirname, 'code')`; `__dirname` is `/app`
in the deployed image (Dockerfile sets `WORKDIR /app`). -/
def CODE_DIR : String := "/app/code"

/-- `const DOCKER_MEM_LIMIT = '256m'` -/
def DOCKER_MEM_LIMIT : String := "256m"

/-- `const DOCKER_CPU_LIMIT = '0.5'` -/
def DOCKER_CPU_LIMIT : String := "0.5"

/-- Worker option `concurrency: 5` (src/app.js line 353). -/
def WORKER_CONCURRENCY : Nat := 5

/-- The `timeout: 15000` (milliseconds) option passed to `exec`
(src/app.js line 299). -/
def EXEC_TIMEOUT_MS : Nat := 15000

/-- `path.join(dir, name)` for the simple two-component case the worker
uses. -/
def pathJoin (a b : String) : String := a ++ "/" ++ b

/-! ## Language catalog (src/app.js lines 23-33) -/

/-- One entry of the `LANGUAGES` object literal. -/
structure LangConfig where
  ext : String
  compileCmd : String
  dockerImage : String
deriving DecidableEq, Repr

/-- The own properties of the `LANGUAGES` object literal: the five
catalog entries. -/
def LANGUAGES_own (tag : String) : Option LangConfig :=
  if tag == "c" then some ⟨"c", "gcc {file} -o {output} && {output}", "gcc:13"⟩
  else if tag == "cpp" then some ⟨"cpp", "g++ {file} -o {output} && {output}", "gcc:13"⟩
  else if tag == "python" then some ⟨"py", "python3 {file}", "python"⟩
  else if tag == "java" then some ⟨"java", "javac {file} && java {classname}", "openjdk:17"⟩
  else if tag == "node" then some ⟨"js", "node {file}", "node"⟩
  else none

/-- Own property names of `Object.prototype`, inherited by every object
literal: a property read `LANGUAGES[k]` for one of these `k` yields a
function (or, for `__proto__`, an object), never `undefined`. -/
def objectProtoProps : List String :=
  ["constructor", "hasOwnProperty", "isPrototypeOf", "propertyIsEnumerable",
   "toLocaleString", "toString", "valueOf", "__proto__",
   "__defineGetter__", "__defineSetter__", "__lookupGetter__", "__lookupSetter__"]

/-- The value of the JavaScript property read `LANGUAGES[tag]`: an own
catalog descriptor, an inherited `Object.prototype` member, or
`undefined`. -/
inductive CatalogValue where
  | descriptor (cfg : LangConfig)
  | protoMember (name : String)
  | missing
deriving DecidableEq, Repr

/-- Property lookup `LANGUAGES[tag]` including the prototype chain of the
object literal. -/
def LANGUAGES_get (tag : String) : CatalogValue :=
  match LANGUAGES_own tag with
  | some cfg => .descriptor cfg
  | none => if tag ∈ objectProtoProps then .protoMember tag else .missing

/-- JavaScript truthiness of the looked-up property value: descriptors
and inherited prototype members are objects/functions (truthy);
`undefined` is falsy. -/
def catalogTruthy : CatalogValue → Bool
  | .missing => false
  | _ => true

example : LANGUAGES_own "python" = some ⟨"py", "python3 {file}", "python"⟩ := rfl
example : LANGUAGES_own "toString" = none := rfl
example : LANGUAGES_get "toString" = .protoMember "toString" := rfl
example : catalogTruthy (LANGUAGES_get "toString") = true := rfl
example : LANGUAGES_get "brainfuck" = .missing := rfl

/-! ## POST /run admission handler (src/app.js lines 107-125) -/

/-- A JSON field of the request body, as the handler sees it
(`req.body.language`, `req.body.code`).  Numbers are modelled as
integers; the handler only branches on truthiness and on
`typeof code !== 'string'`. -/
inductive JSValue where
  | undefined
  | null
  | bool (b : Bool)
  | num (n : Int)
  | str (s : String)
deriving DecidableEq, Repr

/-- JavaScript truthiness of a field value (`!code`, `!language`). -/
def truthyVal : JSValue → Bool
  | .undefined => false
  | .null => false
  | .bool b => b
  | .num n => n != 0
  | .str s => s != ""

/-- `typeof v === 'string'`. -/
def isStringVal : JSValue → Bool
  | .str _ => true
  | _ => false

/-- JavaScript ToPropertyKey coercion applied by `LANGUAGES[language]`
when `language` is not already a string. -/
def toPropertyKey : JSValue → String
  | .undefined => "undefined"
  | .null => "null"
  | .bool b => if b then "true" else "false"
  | .num n => toString n
  | .str s => s

/-- Observable result of the POST /run handler: a 400 client error
(returned before `codeQueue.add` is reached), or a job `{language, code}`
enqueued with a 202 response. -/
inductive RunResponse where
  | clientError (status : Nat) (msg : String)
  | accepted (language : JSValue) (code : JSValue)
deriving DecidableEq, Repr

/-- The body of `app.post('/run', ...)`: validation and enqueue.  The
broker enqueue itself is external and modelled as succeeding; a 500 on
enqueue failure is outside this embedding. -/
def runHandler (language code : JSValue) : RunResponse :=
  if !truthyVal code || !isStringVal code then
    .clientError 400 "Missing or invalid code field"
  else if !truthyVal language || !catalogTruthy (LANGUAGES_get (toPropertyKey language)) then
    .clientError 400 "Missing or unsupported language"
  else
    .accepted language code

example : runHandler (.str "python") (.str "print(1)") =
    .accepted (.str "python") (.str "print(1)") := rfl
example : runHandler (.str "python") (.str "") = .clientError 400 "Missing or invalid code field" := rfl
example : runHandler (.str "brainfuck") (.str "+") =
    .clientError 400 "Missing or unsupported language" := rfl
example : runHandler .undefined (.str "x") = .clientError 400 "Missing or unsupported language" := rfl
example : runHandler (.str "toString") (.str "x") =
    .accepted (.str "toString") (.str "x") := rfl

/-! ## Java class-name extraction (src/app.js lines 207-228) -/

/-- ECMAScript `\s` character class (WhiteSpace and LineTerminator). -/
def isJsSpace (c : Char) : Bool :=
  c == ' ' || c == '\t' || c == '\n' || c == '\r' ||
  c == '\x0b' || c == '\x0c' || c == '\u00A0' || c == '\u1680' ||
  ('\u2000' ≤ c && c ≤ '\u200A') || c == '\u2028' || c == '\u2029' ||
  c == '\u202F' || c == '\u205F' || c == '\u3000' || c == '\uFEFF'

/-- `[A-Za-z_]`: first character of the captured identifier. -/
def isIdStart (c : Char) : Bool :=
  ('A' ≤ c && c ≤ 'Z') || ('a' ≤ c && c ≤ 'z') || c == '_'

/-- `[A-Za-z0-9_]`: subsequent characters of the captured identifier. -/
def isIdChar (c : Char) : Bool :=
  isIdStart c || ('0' ≤ c && c ≤ '9')

/-- Strip a literal from the head of the subject, or fail. -/
def dropLit : List Char → List Char → Option (List Char)
  | [], s => some s
  | _ :: _, [] => none
  | p :: ps, c :: cs => if p == c then dropLit ps cs else none

/-- `\s+` before a following literal or identifier character: consume at
least one whitespace character, then all further whitespace.  Because
neither `c` of `class` nor an identifier-start character is whitespace,
this maximal munch is equivalent to the backtracking regex. -/
def dropSpaces1 : List Char → Option (List Char)
  | [] => none
  | c :: cs => if isJsSpace c then some (cs.dropWhile isJsSpace) else none

/-- Try to match `public\s+class\s+([A-Za-z_][A-Za-z0-9_]*)` at the head
of the subject, returning the capture. -/
def matchAt (s : List Char) : Option (List Char) :=
  match dropLit "public".data s with
  | none => none
  | some s1 =>
    match dropSpaces1 s1 with
    | none => none
    | some s2 =>
      match dropLit "class".data s2 with
      | none => none
      | some s3 =>
        match dropSpaces1 s3 with
        | none => none
        | some s4 =>
          match s4 with
          | [] => none
          | c :: rest =>
            if isIdStart c then some (c :: rest.takeWhile isIdChar) else none

/-- `code.match(/public\s+class\s+([A-Za-z_][A-Za-z0-9_]*)/)`: the
capture of the leftmost match, scanning start positions left to right. -/
def findClassName : List Char → Option (List Char)
  | [] => none
  | c :: rest =>
    match matchAt (c :: rest) with
    | some name => some name
    | none => findClassName rest

/-- The worker's `className`: the extracted capture, or the default
`"Main"` when the source has no match (src/app.js lines 202, 208-223). -/
def javaClassName (code : String) : String :=
  match findClassName code.data with
  | some cs => String.mk cs
  | none => "Main"

example : javaClassName "public class Greeter { }" = "Greeter" := rfl
example : javaClassName "class Greeter" = "Main" := rfl
example : javaClassName "  public\n\tclass   Foo_1 extends Bar" = "Foo_1" := rfl
example : javaClassName "republic class Hidden" = "Hidden" := rfl
example : javaClassName "print(1)" = "Main" := rfl

/-! ## Worker: artifact naming and command preparation
(src/app.js lines 192-293) -/

/-- The worker's `className` variable: initialized to `"Main"`, replaced
by the regex capture only for Java jobs (src/app.js lines 202, 207-223). -/
def workerClassName (language code : String) : String :=
  if language == "java" then javaClassName code else "Main"

/-- The worker's `filename` (the artifact name on the shared volume):
`<ClassName>.java` for Java, `<uuid>.<ext>` otherwise
(src/app.js lines 224, 231).  `id` is the per-job `uuidv4()` value. -/
def artifactName (language code id : String) (cfg : LangConfig) : String :=
  if language == "java" then javaClassName code ++ ".java"
  else id ++ "." ++ cfg.ext

/-- `containerCodePath = /code/<filename>` (src/app.js lines 225, 232). -/
def containerCodePath (language code id : String) (cfg : LangConfig) : String :=
  "/code/" ++ artifactName language code id cfg

/-- `containerOutputPath = /code/<id>.out` (src/app.js line 238). -/
def containerOutputPath (id : String) : String := "/code/" ++ id ++ ".out"

/-- `formatCommand(template, {file, output, classname})`
(src/app.js lines 254-259): `Object.entries` enumerates the literal's
keys in insertion order (file, output, classname), and `reduce` applies
`replaceAll` for each in turn. -/
def formatCommand (template f o cn : String) : String :=
  replaceAllStr (replaceAllStr (replaceAllStr template "{file}" f) "{output}" o) "{classname}" cn

/-- The worker's `compileCommand` (src/app.js lines 265-269). -/
def workerCommand (language code id : String) (cfg : LangConfig) : String :=
  formatCommand cfg.compileCmd
    (containerCodePath language code id cfg)
    (containerOutputPath id)
    (workerClassName language code)

/-- The worker's `filesToCleanup` list: the source file (plus the
`.class` companion for Java) gathered during setup (src/app.js lines
224-235), and the `<id>.out` binary appended when the formatted command
mentions `containerOutputPath` and the language is not Java
(src/app.js lines 277-280). -/
def workerFiles (language code id : String) (cfg : LangConfig) : List String :=
  let base :=
    if language == "java" then
      [pathJoin CODE_DIR (javaClassName code ++ ".java"),
       pathJoin CODE_DIR (javaClassName code ++ ".class")]
    else
      [pathJoin CODE_DIR (id ++ "." ++ cfg.ext)]
  if strContains (workerCommand language code id cfg) (containerOutputPath id)
      && !(language == "java") then
    base ++ [pathJoin CODE_DIR (id ++ ".out")]
  else base

/-- The `dockerCmd` array joined with single spaces
(src/app.js lines 282-293). -/
def dockerCmd (image compileCommand : String) : String :=
  joinSpace
    ["docker run", "--rm",
     "--memory=" ++ DOCKER_MEM_LIMIT,
     "--cpus=" ++ DOCKER_CPU_LIMIT,
     "--network=none",
     "-v " ++ VOLUME_NAME ++ ":/code",
     "-w /code",
     image,
     "sh -c \"" ++ compileCommand ++ "\""]
where
  /-- JavaScript `array.join(' ')`. -/
  joinSpace : List String → String
    | [] => ""
    | [x] => x
    | x :: y :: xs => x ++ " " ++ joinSpace (y :: xs)

/-! ## Worker: sandbox result, classification, cleanup
(src/app.js lines 297-349) -/

/-- Resolution of the promisified `exec(dockerCmd, { timeout: 15000 })`:
the container exited with status 0 and the captured streams are
returned. -/
structure ExecOk where
  stdout : String
  stderr : String
deriving DecidableEq, Repr

/-- Rejection of the promisified `exec`: non-zero exit, spawn failure, or
timeout kill.  `util.promisify(exec)` attaches the captured `stdout` and
`stderr` to the error object. -/
structure ExecErr where
  message : String
  stdout : String
  stderr : String
deriving DecidableEq, Repr

/-- Outcome of the sandbox invocation, as seen by the worker. -/
inductive ExecResult where
  | ok (r : ExecOk)
  | err (e : ExecErr)
deriving DecidableEq, Repr

/-- The stderr captured for a given sandbox outcome. -/
def capturedStderr : ExecResult → String
  | .ok r => r.stderr
  | .err e => e.stderr

/-- An error reaching the worker's catch block: thrown `Error` objects
have no `stderr` property (`none`); errors rejected by the promisified
`exec` carry the captured stderr string. -/
structure JSError where
  message : String
  stderr : Option String
deriving DecidableEq, Repr

/-- The catch block's `errorMessage`
(src/app.js lines 343-346): `error.stderr` is truthy exactly when the
property exists and is a non-empty string. -/
def errorMessageOf (e : JSError) : String :=
  match e.stderr with
  | some s => if s != "" then e.message ++ "\nStderr:\n" ++ s else e.message
  | none => e.message

/-- Terminal outcome of a job: the BullMQ job resolves with the captured
stdout (`completed`), or rejects with a failure reason (`failed`). -/
inductive Outcome where
  | completed (stdout : String)
  | failed (reason : String)
deriving DecidableEq, Repr

/-- Classification of the sandbox outcome (src/app.js lines 297-348):
a rejected `exec` is re-thrown and caught; an exit-0 run with non-empty
stderr is thrown as `Execution potentially failed. Stderr:\n<stderr>`
when the language is java, c or cpp (that thrown `Error` has no `stderr`
property); otherwise the job resolves with stdout. -/
def classify (language : String) (res : ExecResult) : Outcome :=
  match res with
  | .err e => .failed (errorMessageOf ⟨e.message, some e.stderr⟩)
  | .ok r =>
    if r.stderr != "" && (language == "java" || language == "c" || language == "cpp") then
      .failed (errorMessageOf ⟨"Execution potentially failed. Stderr:\n" ++ r.stderr, none⟩)
    else
      .completed r.stdout

/-- `cleanupFiles(filePaths, jobId)` (src/app.js lines 68-89): best-effort
unlink of each listed path; the filesystem is modelled as the list of
paths currently present in the workspace. -/
def cleanupFiles (paths : List String) (fs : List String) : List String :=
  paths.foldl (fun acc p => acc.filter (fun q => q != p)) fs

/-- Terminal state of one job together with the workspace contents. -/
structure JobOutcome where
  outcome : Outcome
  fsAfter : List String
deriving Repr

/-- The tail of the worker body, from the sandbox invocation on
(src/app.js lines 297-349): classify the sandbox result; on success run
`cleanupFiles(filesToCleanup)` and resolve with stdout; on failure leave
the workspace untouched and reject with the failure reason.  `fs` is the
workspace contents when the sandbox returns (source file written at line
249, plus whatever the container produced). -/
def runJob (language code id : String) (cfg : LangConfig) (fs : List String)
    (res : ExecResult) : JobOutcome :=
  let files := workerFiles language code id cfg
  match classify language res with
  | .completed out => ⟨.completed out, cleanupFiles files fs⟩
  | .failed reason => ⟨.failed reason, fs⟩

/-- Node `child_process` semantics for a timeout kill: the child is sent
SIGTERM when the 15000 ms deadline passes, and the promisified `exec`
rejects with an error whose message is
`Command failed: <command>\n<stderr>`, carrying the captured streams. -/
def timeoutExecError (cmd stdout stderr : String) : ExecErr :=
  ⟨"Command failed: " ++ cmd ++ "\n" ++ stderr, stdout, stderr⟩

example : classify "python" (.ok ⟨"hi\n", "warn"⟩) = .completed "hi\n" := rfl
example : classify "c" (.ok ⟨"", "warn"⟩) =
    .failed ("Execution potentially failed. Stderr:\nwarn") := rfl
example : classify "java" (.ok ⟨"ok", ""⟩) = .completed "ok" := rfl
example : classify "node" (.err ⟨"Command failed: x", "", "boom"⟩) =
    .failed "Command failed: x\nStderr:\nboom" := rfl
example : cleanupFiles ["a", "b"] ["a", "keep", "b"] = ["keep"] := rfl

/-! ## Helper lemmas: prefix, containment, replacement -/

theorem strData_append (a b : String) : (a ++ b).data = a.data ++ b.data := rfl

theorem startsWithL_append_self (p t : List Char) : startsWithL p (p ++ t) = true := by
  induction p with
  | nil => rfl
  | cons c cs ih => simp [startsWithL, ih]

theorem containsL_nil_pat (s : List Char) : containsL s [] = true := by
  cases s <;> simp [containsL, startsWithL]

theorem containsL_append_right (x y : List Char) : containsL (x ++ y) y = true := by
  induction x with
  | nil =>
    cases y with
    | nil => rfl
    | cons c cs =>
      have : startsWithL (c :: cs) (c :: cs) = true := by
        have := startsWithL_append_self (c :: cs) []
        simpa using this
      simp [containsL, this]
  | cons a x' ih => simp [containsL, ih]

theorem strContains_append_right (x y : String) : strContains (x ++ y) y = true := by
  unfold strContains
  rw [strData_append]
  exact containsL_append_right x.data y.data

theorem strContains_empty_pat (s : String) : strContains s "" = true := by
  unfold strContains
  exact containsL_nil_pat s.data

theorem replaceAllNE_nil (p0 : Char) (ps rep : List Char) :
    replaceAllNE p0 ps rep [] = [] := by
  simp [replaceAllNE]

theorem replaceAllNE_cons_pos (p0 : Char) (ps rep : List Char) (c : Char) (s : List Char)
    (h : startsWithL (p0 :: ps) (c :: s) = true) :
    replaceAllNE p0 ps rep (c :: s) = rep ++ replaceAllNE p0 ps rep (List.drop ps.length s) := by
  rw [replaceAllNE]
  simp [h]

theorem replaceAllNE_cons_neg (p0 : Char) (ps rep : List Char) (c : Char) (s : List Char)
    (h : startsWithL (p0 :: ps) (c :: s) = false) :
    replaceAllNE p0 ps rep (c :: s) = c :: replaceAllNE p0 ps rep s := by
  rw [replaceAllNE]
  simp [h]

theorem replaceAllNE_skip_block (p0 : Char) (ps rep : List Char) (a b : List Char)
    (h : ∀ c ∈ a, c ≠ p0) :
    replaceAllNE p0 ps rep (a ++ b) = a ++ replaceAllNE p0 ps rep b := by
  induction a with
  | nil => simp
  | cons c a' ih =>
    have hc : c ≠ p0 := h c (List.mem_cons_self c a')
    have hs : startsWithL (p0 :: ps) (c :: (a' ++ b)) = false := by
      have : (p0 == c) = false := beq_eq_false_iff_ne.mpr fun hh => hc hh.symm
      simp [startsWithL, this]
    rw [List.cons_append, replaceAllNE_cons_neg _ _ _ _ _ hs,
      ih fun x hx => h x (List.mem_cons_of_mem c hx), List.cons_append]

theorem replaceAllNE_match (p0 : Char) (ps rep b : List Char) :
    replaceAllNE p0 ps rep ((p0 :: ps) ++ b) = rep ++ replaceAllNE p0 ps rep b := by
  have hs : startsWithL (p0 :: ps) (p0 :: (ps ++ b)) = true := by
    have := startsWithL_append_self (p0 :: ps) b
    simpa using this
  rw [List.cons_append, replaceAllNE_cons_pos _ _ _ _ _ hs, List.drop_left]

theorem replaceAllNE_no_occur (p0 : Char) (ps rep : List Char) (s : List Char)
    (h : containsL s (p0 :: ps) = false) :
    replaceAllNE p0 ps rep s = s := by
  induction s with
  | nil => exact replaceAllNE_nil p0 ps rep
  | cons c rest ih =>
    have h2 := h
    simp only [containsL, Bool.or_eq_false_iff] at h2
    rw [replaceAllNE_cons_neg _ _ _ _ _ h2.1, ih h2.2]

/-- No `{` occurs in the string, so no placeholder can start inside
it. -/
def braceFreeStr (s : String) : Bool := s.data.all (fun c => !(c == '{'))

theorem braceFree_data (s : String) (h : braceFreeStr s = true) : ∀ c ∈ s.data, c ≠ '{' := by
  intro c hc
  have := List.all_eq_true.mp h c hc
  simpa using this

theorem expandL_step1 (pre fd : List Char) (hpre : ∀ c ∈ pre, c ≠ '{') :
    replaceAllNE '{' "file\x7d".data fd (pre ++ "{file} -o {output} && {output}".data) =
      pre ++ (fd ++ " -o {output} && {output}".data) := by
  have h1 : "{file} -o {output} && {output}".data =
      ('{' :: "file\x7d".data) ++ " -o {output} && {output}".data := by decide
  rw [h1, replaceAllNE_skip_block _ _ _ _ _ hpre, replaceAllNE_match,
    replaceAllNE_no_occur _ _ _ _ (by decide)]

theorem expandL_step2 (pre fd od : List Char) (hpre : ∀ c ∈ pre, c ≠ '{')
    (hf : ∀ c ∈ fd, c ≠ '{') :
    replaceAllNE '{' "output\x7d".data od (pre ++ (fd ++ " -o {output} && {output}".data)) =
      pre ++ (fd ++ (" -o ".data ++ (od ++ (" && ".data ++ od)))) := by
  have h2 : " -o {output} && {output}".data =
      " -o ".data ++ (('{' :: "output\x7d".data) ++
        (" && ".data ++ (('{' :: "output\x7d".data) ++ ([] : List Char)))) := by decide
  rw [h2, replaceAllNE_skip_block _ _ _ _ _ hpre, replaceAllNE_skip_block _ _ _ _ _ hf,
    replaceAllNE_skip_block _ _ _ _ _ (by decide), replaceAllNE_match,
    replaceAllNE_skip_block _ _ _ _ _ (by decide), replaceAllNE_match, replaceAllNE_nil,
    List.append_nil]

theorem expandL_step3 (s cnd : List Char) (h : ∀ c ∈ s, c ≠ '{') :
    replaceAllNE '{' "classname\x7d".data cnd s = s := by
  have := replaceAllNE_skip_block '{' "classname\x7d".data cnd s [] h
  simpa [replaceAllNE_nil] using this

/-- Full expansion of the shared C/C++ template shape
`<w>{file} -o {output} && {output}`: both `{output}` occurrences are
replaced. -/
theorem formatCommand_gcc_like (w : String) (hw : ∀ c ∈ w.data, c ≠ '{')
    (f o cn : String) (hf : braceFreeStr f = true) (ho : braceFreeStr o = true) :
    formatCommand (w ++ "{file} -o {output} && {output}") f o cn =
      w ++ f ++ " -o " ++ o ++ " && " ++ o := by
  apply String.ext
  show replaceAllNE '{' "classname\x7d".data cn.data
      (replaceAllNE '{' "output\x7d".data o.data
        (replaceAllNE '{' "file\x7d".data f.data
          (w.data ++ "{file} -o {output} && {output}".data))) =
    (w ++ f ++ " -o " ++ o ++ " && " ++ o).data
  have hfd : ∀ c ∈ f.data, c ≠ '{' := braceFree_data f hf
  have hod : ∀ c ∈ o.data, c ≠ '{' := braceFree_data o ho
  rw [expandL_step1 _ _ hw, expandL_step2 _ _ _ hw hfd]
  rw [expandL_step3]
  · simp [strData_append, List.append_assoc]
  · intro c hc
    simp only [List.mem_append] at hc
    rcases hc with (h | h | h | h | h | h)
    · exact hw c h
    · exact hfd c h
    · revert h
      revert c
      decide
    · exact hod c h
    · revert h
      revert c
      decide
    · exact hod c h

/-! ## Helper lemmas: identifiers, catalog, cleanup, name shapes -/

/-- The string matches `[A-Za-z_][A-Za-z0-9_]*`. -/
def isIdentStr (s : String) : Bool :=
  match s.data with
  | [] => false
  | c :: cs => isIdStart c && cs.all isIdChar

theorem all_takeWhile_self (p : Char → Bool) (l : List Char) :
    (l.takeWhile p).all p = true := by
  induction l with
  | nil => rfl
  | cons c cs ih =>
    cases hpc : p c with
    | true => simp [List.takeWhile_cons, hpc, ih]
    | false => simp [List.takeWhile_cons, hpc]

theorem matchAt_ident (s cs : List Char) (h : matchAt s = some cs) :
    ∃ c t, cs = c :: t ∧ isIdStart c = true ∧ t.all isIdChar = true := by
  unfold matchAt at h
  split at h
  · exact absurd h (by simp)
  split at h
  · exact absurd h (by simp)
  split at h
  · exact absurd h (by simp)
  split at h
  · exact absurd h (by simp)
  split at h
  · exact absurd h (by simp)
  rename_i c rest heq
  split at h
  · rename_i hid
    refine ⟨c, rest.takeWhile isIdChar, ?_, hid, all_takeWhile_self _ _⟩
    exact ((Option.some.injEq _ _).mp h).symm
  · exact absurd h (by simp)

theorem findClassName_ident (s cs : List Char) (h : findClassName s = some cs) :
    ∃ c t, cs = c :: t ∧ isIdStart c = true ∧ t.all isIdChar = true := by
  induction s with
  | nil => simp [findClassName] at h
  | cons a rest ih =>
    unfold findClassName at h
    split at h
    · next name hm =>
      obtain ⟨c, t, hcs, hc, ht⟩ := matchAt_ident _ _ hm
      exact ⟨c, t, by simpa [hcs] using h.symm, hc, ht⟩
    · exact ih h

theorem javaClassName_ident (code : String) : isIdentStr (javaClassName code) = true := by
  unfold javaClassName
  split
  · next cs h =>
    obtain ⟨c, t, rfl, hc, ht⟩ := findClassName_ident _ _ h
    show (isIdStart c && t.all isIdChar) = true
    rw [hc, ht]
    rfl
  · decide

theorem workerClassName_ident (language code : String) :
    isIdentStr (workerClassName language code) = true := by
  unfold workerClassName
  split
  · exact javaClassName_ident code
  · decide

/-- Enumeration of the catalog: a successful lookup is one of the five
entries. -/
theorem catalog_cases (tag : String) (cfg : LangConfig) (h : LANGUAGES_own tag = some cfg) :
    (tag = "c" ∧ cfg = ⟨"c", "gcc {file} -o {output} && {output}", "gcc:13"⟩) ∨
    (tag = "cpp" ∧ cfg = ⟨"cpp", "g++ {file} -o {output} && {output}", "gcc:13"⟩) ∨
    (tag = "python" ∧ cfg = ⟨"py", "python3 {file}", "python"⟩) ∨
    (tag = "java" ∧ cfg = ⟨"java", "javac {file} && java {classname}", "openjdk:17"⟩) ∨
    (tag = "node" ∧ cfg = ⟨"js", "node {file}", "node"⟩) := by
  unfold LANGUAGES_own at h
  simp only [beq_iff_eq] at h
  by_cases h1 : tag = "c"
  · rw [if_pos h1] at h
    exact Or.inl ⟨h1, ((Option.some.injEq _ _).mp h).symm⟩
  rw [if_neg h1] at h
  by_cases h2 : tag = "cpp"
  · rw [if_pos h2] at h
    exact Or.inr (Or.inl ⟨h2, ((Option.some.injEq _ _).mp h).symm⟩)
  rw [if_neg h2] at h
  by_cases h3 : tag = "python"
  · rw [if_pos h3] at h
    exact Or.inr (Or.inr (Or.inl ⟨h3, ((Option.some.injEq _ _).mp h).symm⟩))
  rw [if_neg h3] at h
  by_cases h4 : tag = "java"
  · rw [if_pos h4] at h
    exact Or.inr (Or.inr (Or.inr (Or.inl ⟨h4, ((Option.some.injEq _ _).mp h).symm⟩)))
  rw [if_neg h4] at h
  by_cases h5 : tag = "node"
  · rw [if_pos h5] at h
    exact Or.inr (Or.inr (Or.inr (Or.inr ⟨h5, ((Option.some.injEq _ _).mp h).symm⟩)))
  rw [if_neg h5] at h
  exact absurd h (by simp)

theorem cleanupFiles_cons (p : String) (ps fs : List String) :
    cleanupFiles (p :: ps) fs = cleanupFiles ps (fs.filter (fun q => q != p)) := rfl

theorem mem_cleanupFiles (x : String) (paths : List String) :
    ∀ fs, x ∈ cleanupFiles paths fs → x ∈ fs := by
  induction paths with
  | nil => intro fs h; simpa [cleanupFiles] using h
  | cons p ps ih =>
    intro fs h
    rw [cleanupFiles_cons] at h
    exact List.mem_of_mem_filter (ih _ h)

theorem not_mem_cleanupFiles (p : String) (paths : List String) (hp : p ∈ paths) :
    ∀ fs, p ∉ cleanupFiles paths fs := by
  induction paths with
  | nil => cases hp
  | cons q ps ih =>
    intro fs hmem
    rw [cleanupFiles_cons] at hmem
    rcases List.mem_cons.mp hp with rfl | hp'
    · have hin := mem_cleanupFiles _ _ _ hmem
      have := List.of_mem_filter hin
      simp at this
    · exact ih hp' _ hmem

/-- No `.` occurs in the string (true of uuidv4 values, which consist of
hex digits and hyphens, and of extracted Java identifiers). -/
def dotFreeStr (s : String) : Bool := s.data.all (fun c => !(c == '.'))

theorem dotFree_data (s : String) (h : dotFreeStr s = true) : ∀ c ∈ s.data, c ≠ '.' := by
  intro c hc
  have := List.all_eq_true.mp h c hc
  simpa using this

theorem ident_dotFree (s : String) (h : isIdentStr s = true) : dotFreeStr s = true := by
  unfold isIdentStr at h
  unfold dotFreeStr
  rw [List.all_eq_true]
  split at h
  · exact absurd h (by simp)
  next c cs hdata =>
    rw [hdata, List.forall_mem_cons]
    have hparts : isIdStart c = true ∧ cs.all isIdChar = true := by simpa using h
    constructor
    · simp only [Bool.not_eq_true']
      rw [beq_eq_false_iff_ne]
      intro hdot
      rw [hdot] at hparts
      exact absurd hparts.1 (by decide)
    · intro x hx
      have hxc : isIdChar x = true := List.all_eq_true.mp hparts.2 x hx
      simp only [Bool.not_eq_true']
      rw [beq_eq_false_iff_ne]
      intro hxe
      rw [hxe] at hxc
      exact absurd hxc (by decide)

/-- Splitting a string of the form `a ++ '.' :: x` at its first dot is
unambiguous when `a` contains no dot. -/
theorem append_dot_inj (a : List Char) :
    ∀ b x y : List Char, (∀ c ∈ a, c ≠ '.') → (∀ c ∈ b, c ≠ '.') →
      a ++ '.' :: x = b ++ '.' :: y → a = b ∧ x = y := by
  induction a with
  | nil =>
    intro b x y _ hb h
    cases b with
    | nil => simpa using h
    | cons d b' =>
      rw [List.nil_append, List.cons_append] at h
      have hd : ('.' : Char) = d := ((List.cons.injEq _ _ _ _).mp h).1
      exact absurd hd.symm (hb d (List.mem_cons_self d b'))
  | cons e a' ih =>
    intro b x y ha hb h
    cases b with
    | nil =>
      rw [List.cons_append, List.nil_append] at h
      have he : e = '.' := by
        have := (List.cons.injEq _ _ _ _).mp h
        exact this.1
      exact absurd he (ha e (List.mem_cons_self e a'))
    | cons d b' =>
      rw [List.cons_append, List.cons_append] at h
      have hparts := (List.cons.injEq _ _ _ _).mp h
      obtain ⟨hab, hxy⟩ := ih b' x y (fun c hc => ha c (List.mem_cons_of_mem e hc))
        (fun c hc => hb c (List.mem_cons_of_mem d hc)) hparts.2
      exact ⟨by rw [hparts.1, hab], hxy⟩

/-- String-level version: names of the form `<stem>.<suffix>` with
dot-free stems agree componentwise. -/
theorem name_dot_inj (a b x y : String) (ha : dotFreeStr a = true) (hb : dotFreeStr b = true)
    (h : a ++ "." ++ x = b ++ "." ++ y) : a = b ∧ x = y := by
  have hdata : a.data ++ '.' :: x.data = b.data ++ '.' :: y.data := by
    have := congrArg String.data h
    simpa [strData_append] using this
  obtain ⟨h1, h2⟩ := append_dot_inj a.data b.data x.data y.data
    (dotFree_data a ha) (dotFree_data b hb) hdata
  exact ⟨String.ext h1, String.ext h2⟩

theorem braceFree_append (a b : String) (ha : braceFreeStr a = true)
    (hb : braceFreeStr b = true) : braceFreeStr (a ++ b) = true := by
  unfold braceFreeStr at *
  rw [strData_append, List.all_append, ha, hb]
  rfl

/-- The artifact set of a job as the spec enumerates it (§3): the source
file, the `.class` companion for Java, the compiled binary for C/C++. -/
def artifactSet (language code id : String) (cfg : LangConfig) : List String :=
  if language == "java" then
    [pathJoin CODE_DIR (javaClassName code ++ ".java"),
     pathJoin CODE_DIR (javaClassName code ++ ".class")]
  else if language == "c" || language == "cpp" then
    [pathJoin CODE_DIR (id ++ "." ++ cfg.ext), pathJoin CODE_DIR (id ++ ".out")]
  else
    [pathJoin CODE_DIR (id ++ "." ++ cfg.ext)]

theorem workerCommand_c (code id : String) (hid : braceFreeStr id = true) :
    workerCommand "c" code id ⟨"c", "gcc {file} -o {output} && {output}", "gcc:13"⟩ =
      "gcc " ++ ("/code/" ++ (id ++ "." ++ "c")) ++ " -o " ++ ("/code/" ++ id ++ ".out")
        ++ " && " ++ ("/code/" ++ id ++ ".out") := by
  show formatCommand "gcc {file} -o {output} && {output}"
      ("/code/" ++ (id ++ "." ++ "c")) ("/code/" ++ id ++ ".out") "Main" = _
  rw [show ("gcc {file} -o {output} && {output}" : String) =
      "gcc " ++ "{file} -o {output} && {output}" from rfl]
  exact formatCommand_gcc_like "gcc " (by decide) _ _ "Main"
    (braceFree_append _ _ (by decide)
      (braceFree_append _ _ (braceFree_append _ _ hid (by decide)) (by decide)))
    (braceFree_append _ _ (braceFree_append _ _ (by decide) hid) (by decide))

theorem workerCommand_cpp (code id : String) (hid : braceFreeStr id = true) :
    workerCommand "cpp" code id ⟨"cpp", "g++ {file} -o {output} && {output}", "gcc:13"⟩ =
      "g++ " ++ ("/code/" ++ (id ++ "." ++ "cpp")) ++ " -o " ++ ("/code/" ++ id ++ ".out")
        ++ " && " ++ ("/code/" ++ id ++ ".out") := by
  show formatCommand "g++ {file} -o {output} && {output}"
      ("/code/" ++ (id ++ "." ++ "cpp")) ("/code/" ++ id ++ ".out") "Main" = _
  rw [show ("g++ {file} -o {output} && {output}" : String) =
      "g++ " ++ "{file} -o {output} && {output}" from rfl]
  exact formatCommand_gcc_like "g++ " (by decide) _ _ "Main"
    (braceFree_append _ _ (by decide)
      (braceFree_append _ _ (braceFree_append _ _ hid (by decide)) (by decide)))
    (braceFree_append _ _ (braceFree_append _ _ (by decide) hid) (by decide))

theorem workerCommand_c_contains (code id : String) (hid : braceFreeStr id = true) :
    strContains (workerCommand "c" code id ⟨"c", "gcc {file} -o {output} && {output}", "gcc:13"⟩)
      (containerOutputPath id) = true := by
  rw [workerCommand_c code id hid]
  show strContains (("gcc " ++ ("/code/" ++ (id ++ "." ++ "c")) ++ " -o "
    ++ ("/code/" ++ id ++ ".out") ++ " && ") ++ ("/code/" ++ id ++ ".out"))
    ("/code/" ++ id ++ ".out") = true
  exact strContains_append_right _ _

theorem workerCommand_cpp_contains (code id : String) (hid : braceFreeStr id = true) :
    strContains
      (workerCommand "cpp" code id ⟨"cpp", "g++ {file} -o {output} && {output}", "gcc:13"⟩)
      (containerOutputPath id) = true := by
  rw [workerCommand_cpp code id hid]
  show strContains (("g++ " ++ ("/code/" ++ (id ++ "." ++ "cpp")) ++ " -o "
    ++ ("/code/" ++ id ++ ".out") ++ " && ") ++ ("/code/" ++ id ++ ".out"))
    ("/code/" ++ id ++ ".out") = true
  exact strContains_append_right _ _

theorem workerFiles_c (code id : String) (hid : braceFreeStr id = true) :
    workerFiles "c" code id ⟨"c", "gcc {file} -o {output} && {output}", "gcc:13"⟩ =
      [pathJoin CODE_DIR (id ++ "." ++ "c"), pathJoin CODE_DIR (id ++ ".out")] := by
  unfold workerFiles
  rw [workerCommand_c_contains code id hid]
  rfl

theorem workerFiles_cpp (code id : String) (hid : braceFreeStr id = true) :
    workerFiles "cpp" code id ⟨"cpp", "g++ {file} -o {output} && {output}", "gcc:13"⟩ =
      [pathJoin CODE_DIR (id ++ "." ++ "cpp"), pathJoin CODE_DIR (id ++ ".out")] := by
  unfold workerFiles
  rw [workerCommand_cpp_contains code id hid]
  rfl

theorem workerFiles_java (code id : String) (cfg : LangConfig) :
    workerFiles "java" code id cfg =
      [pathJoin CODE_DIR (javaClassName code ++ ".java"),
       pathJoin CODE_DIR (javaClassName code ++ ".class")] := by
  simp [workerFiles]

theorem src_mem_workerFiles (language code id : String) (cfg : LangConfig)
    (h : ¬language = "java") :
    pathJoin CODE_DIR (id ++ "." ++ cfg.ext) ∈ workerFiles language code id cfg := by
  unfold workerFiles
  have hb : (language == "java") = false := beq_eq_false_iff_ne.mpr h
  simp only [hb, Bool.not_false, Bool.and_true, if_false]
  split <;> simp

theorem artifactSet_sub_workerFiles (language code id : String) (cfg : LangConfig)
    (hcfg : LANGUAGES_own language = some cfg) (hid : braceFreeStr id = true) :
    ∀ p ∈ artifactSet language code id cfg, p ∈ workerFiles language code id cfg := by
  rcases catalog_cases language cfg hcfg with
    ⟨hl, hc⟩ | ⟨hl, hc⟩ | ⟨hl, hc⟩ | ⟨hl, hc⟩ | ⟨hl, hc⟩ <;> subst hl <;> subst hc
  · rw [workerFiles_c code id hid]
    intro p hp
    simpa [artifactSet] using hp
  · rw [workerFiles_cpp code id hid]
    intro p hp
    simpa [artifactSet] using hp
  · intro p hp
    have hp' : p = pathJoin CODE_DIR (id ++ "." ++ "py") := by
      simpa [artifactSet] using hp
    rw [hp']
    exact src_mem_workerFiles "python" code id _ (by decide)
  · rw [workerFiles_java code id _]
    intro p hp
    simpa [artifactSet] using hp
  · intro p hp
    have hp' : p = pathJoin CODE_DIR (id ++ "." ++ "js") := by
      simpa [artifactSet] using hp
    rw [hp']
    exact src_mem_workerFiles "node" code id _ (by decide)

theorem strStartsWith_append_self (p t : String) : strStartsWith p (p ++ t) = true := by
  unfold strStartsWith
  rw [strData_append]
  exact startsWithL_append_self _ _

theorem startsWithL_cons_ne (a b : Char) (ps cs : List Char) (h : (a == b) = false) :
    startsWithL (a :: ps) (b :: cs) = false := by
  simp [startsWithL, h]

theorem timeout_prefix_false (r : String) :
    strStartsWith "Timeout after" ("Command failed: " ++ r) = false := by
  unfold strStartsWith
  rw [strData_append]
  rw [show ("Command failed: " : String).data = 'C' :: "ommand failed: ".data from rfl]
  rw [show ("Timeout after" : String).data = 'T' :: "imeout after".data from rfl]
  rw [List.cons_append]
  exact startsWithL_cons_ne 'T' 'C' _ _ (by decide)

theorem errorMessageOf_prefix (m : String) (st : Option String) :
    ∃ t, errorMessageOf ⟨m, st⟩ = m ++ t := by
  cases st with
  | none => exact ⟨"", by simp [errorMessageOf]⟩
  | some s =>
    by_cases hs : (s != "") = true
    · refine ⟨"\nStderr:\n" ++ s, ?_⟩
      show (if (s != "") = true then m ++ "\nStderr:\n" ++ s else m) = m ++ ("\nStderr:\n" ++ s)
      rw [if_pos hs, String.append_assoc]
    · refine ⟨"", ?_⟩
      show (if (s != "") = true then m ++ "\nStderr:\n" ++ s else m) = m ++ ""
      rw [if_neg hs]
      simp

/-- Every failure reason produced by the classifier contains the stderr
captured for the run. -/
theorem classify_failed_contains (language : String) (res : ExecResult) (reason : String)
    (h : classify language res = .failed reason) :
    strContains reason (capturedStderr res) = true := by
  cases res with
  | err e =>
    have hr : errorMessageOf ⟨e.message, some e.stderr⟩ = reason := by
      have := h
      simp only [classify] at this
      exact (Outcome.failed.injEq _ _).mp this
    by_cases hs : (e.stderr != "") = true
    · have : reason = e.message ++ "\nStderr:\n" ++ e.stderr := by
        rw [← hr]
        show (if (e.stderr != "") = true
          then e.message ++ "\nStderr:\n" ++ e.stderr else e.message) = _
        rw [if_pos hs]
      rw [this]
      exact strContains_append_right _ _
    · have hse : e.stderr = "" := by simpa using hs
      have : reason = e.message := by
        rw [← hr]
        show (if (e.stderr != "") = true
          then e.message ++ "\nStderr:\n" ++ e.stderr else e.message) = _
        rw [if_neg hs]
      show strContains reason e.stderr = true
      rw [hse]
      exact strContains_empty_pat reason
  | ok r =>
    simp only [classify] at h
    split at h
    · have hr : errorMessageOf ⟨"Execution potentially failed. Stderr:\n" ++ r.stderr, none⟩
          = reason := (Outcome.failed.injEq _ _).mp h
      have : reason = "Execution potentially failed. Stderr:\n" ++ r.stderr := by
        rw [← hr]
        rfl
      rw [this]
      exact strContains_append_right _ _
    · exact absurd h (by simp)

/-! ## Claim theorems -/

/-- C1: for every job whose sandbox invocation exits with status 0
(the `exec` promise resolves), the outcome is classified by the
treat-stderr-as-failure rule: empty stderr completes with the captured
stdout; non-empty stderr fails for c, cpp and java with reason exactly
`Execution potentially failed. Stderr:\n` followed by the stderr; and
non-empty stderr still completes with the captured stdout for python and
node. -/
theorem C1_exit0_stderr_classification (language stdout stderr : String) :
    (stderr = "" → classify language (.ok ⟨stdout, stderr⟩) = .completed stdout) ∧
    (stderr ≠ "" → (language = "c" ∨ language = "cpp" ∨ language = "java") →
      classify language (.ok ⟨stdout, stderr⟩) =
        .failed ("Execution potentially failed. Stderr:\n" ++ stderr)) ∧
    (stderr ≠ "" → (language = "python" ∨ language = "node") →
      classify language (.ok ⟨stdout, stderr⟩) = .completed stdout) := by
  refine ⟨?_, ?_, ?_⟩
  · intro h
    subst h
    simp [classify]
  · intro hne hlang
    have hb : (stderr != "") = true := bne_iff_ne.mpr hne
    rcases hlang with rfl | rfl | rfl <;> simp [classify, hb, errorMessageOf]
  · intro hne hlang
    rcases hlang with rfl | rfl <;> simp [classify]

/-- Witness for C1 at concrete inputs: a C job with a warning on stderr
fails, a Python job with a warning completes, a Java job with empty
stderr completes. -/
theorem C1_exit0_stderr_classification_witness :
    classify "c" (.ok ⟨"", "warning: unused"⟩) =
      .failed ("Execution potentially failed. Stderr:\n" ++ "warning: unused") ∧
    classify "python" (.ok ⟨"hi\n", "DeprecationWarning"⟩) = .completed "hi\n" ∧
    classify "java" (.ok ⟨"ok\n", ""⟩) = .completed "ok\n" :=
  ⟨(C1_exit0_stderr_classification "c" "" "warning: unused").2.1 (by decide) (Or.inl rfl),
   (C1_exit0_stderr_classification "python" "hi\n" "DeprecationWarning").2.2 (by decide)
     (Or.inl rfl),
   (C1_exit0_stderr_classification "java" "ok\n" "").1 rfl⟩

/-- C2 (amended): a job whose sandbox run exceeds the 15000 ms `exec`
deadline terminates in the failed state, and its failure reason begins
with `Command failed: ` (the Node timeout-kill error message, carrying
the docker command and any captured stderr); it never begins with
`Timeout after`. -/
theorem C2_timeout_failed_reason (language cmd stdout stderr : String) :
    ∃ reason,
      classify language (.err (timeoutExecError cmd stdout stderr)) = .failed reason ∧
      strStartsWith "Command failed: " reason = true ∧
      strStartsWith "Timeout after" reason = false ∧
      EXEC_TIMEOUT_MS = 15000 := by
  obtain ⟨t, ht⟩ :=
    errorMessageOf_prefix ("Command failed: " ++ cmd ++ "\n" ++ stderr) (some stderr)
  refine ⟨errorMessageOf ⟨"Command failed: " ++ cmd ++ "\n" ++ stderr, some stderr⟩,
    rfl, ?_, ?_, rfl⟩
  · rw [ht, show ("Command failed: " ++ cmd ++ "\n" ++ stderr) ++ t
        = "Command failed: " ++ (cmd ++ ("\n" ++ (stderr ++ t))) from by
          simp [String.append_assoc]]
    exact strStartsWith_append_self _ _
  · rw [ht, show ("Command failed: " ++ cmd ++ "\n" ++ stderr) ++ t
        = "Command failed: " ++ (cmd ++ ("\n" ++ (stderr ++ t))) from by
          simp [String.append_assoc]]
    exact timeout_prefix_false _

/-- C2: counterexample to the claim as stated — a timed-out node job
(spec scenario: an infinite loop) fails with reason
`Command failed: docker run ...`, which does not begin with
`Timeout after 15 seconds`. -/
theorem C2_timeout_counterexample :
    classify "node" (.err (timeoutExecError (dockerCmd "node" "node /code/u1.js") "" "")) =
      .failed ("Command failed: " ++ dockerCmd "node" "node /code/u1.js" ++ "\n") ∧
    strStartsWith "Timeout after 15 seconds"
      ("Command failed: " ++ dockerCmd "node" "node /code/u1.js" ++ "\n") = false := by
  constructor
  · decide
  · decide

/-- C3: for a job that reaches a terminal state after the sandbox
invocation: on completion every path of its artifact set has been
unlinked from the workspace; on failure the workspace is untouched and
the failure reason contains the captured stderr. -/
theorem C3_artifact_lifecycle (language code id : String) (cfg : LangConfig)
    (fs : List String) (res : ExecResult)
    (hcfg : LANGUAGES_own language = some cfg) (hid : braceFreeStr id = true) :
    (∀ out, (runJob language code id cfg fs res).outcome = .completed out →
      ∀ p ∈ artifactSet language code id cfg,
        p ∉ (runJob language code id cfg fs res).fsAfter) ∧
    (∀ reason, (runJob language code id cfg fs res).outcome = .failed reason →
      (runJob language code id cfg fs res).fsAfter = fs ∧
      strContains reason (capturedStderr res) = true) := by
  constructor
  · intro out hout p hp
    cases hcl : classify language res with
    | completed o =>
      have hfs : (runJob language code id cfg fs res).fsAfter
          = cleanupFiles (workerFiles language code id cfg) fs := by
        simp [runJob, hcl]
      rw [hfs]
      exact not_mem_cleanupFiles p _
        (artifactSet_sub_workerFiles language code id cfg hcfg hid p hp) fs
    | failed r =>
      have : (runJob language code id cfg fs res).outcome = .failed r := by
        simp [runJob, hcl]
      rw [hout] at this
      exact absurd this (by simp)
  · intro reason hout
    cases hcl : classify language res with
    | completed o =>
      have : (runJob language code id cfg fs res).outcome = .completed o := by
        simp [runJob, hcl]
      rw [hout] at this
      exact absurd this (by simp)
    | failed r =>
      have hro : (runJob language code id cfg fs res).outcome = .failed r := by
        simp [runJob, hcl]
      rw [hout] at hro
      have hr : reason = r := (Outcome.failed.injEq _ _).mp hro
      refine ⟨by simp [runJob, hcl], ?_⟩
      exact classify_failed_contains language res reason (by rw [hcl, hr])
  
/-- Witness for C3: a completed C job has both its source file and its
compiled binary removed from the workspace, and a failed C job (exit 0
with stderr) leaves the workspace untouched with the stderr in the
reason. -/
theorem C3_artifact_lifecycle_witness :
    ("/app/code/u1.c" ∉ (runJob "c" "int main()" "u1"
      ⟨"c", "gcc {file} -o {output} && {output}", "gcc:13"⟩
      ["/app/code/u1.c", "/app/code/u1.out", "/app/code/keep.txt"]
      (.ok ⟨"", ""⟩)).fsAfter) ∧
    ("/app/code/u1.out" ∉ (runJob "c" "int main()" "u1"
      ⟨"c", "gcc {file} -o {output} && {output}", "gcc:13"⟩
      ["/app/code/u1.c", "/app/code/u1.out", "/app/code/keep.txt"]
      (.ok ⟨"", ""⟩)).fsAfter) ∧
    ((runJob "c" "int main()" "u2"
      ⟨"c", "gcc {file} -o {output} && {output}", "gcc:13"⟩
      ["/app/code/u2.c"] (.ok ⟨"", "warn"⟩)).fsAfter = ["/app/code/u2.c"]) :=
  ⟨(C3_artifact_lifecycle "c" "int main()" "u1"
      ⟨"c", "gcc {file} -o {output} && {output}", "gcc:13"⟩
      ["/app/code/u1.c", "/app/code/u1.out", "/app/code/keep.txt"]
      (.ok ⟨"", ""⟩) rfl (by decide)).1 "" rfl
      "/app/code/u1.c" (by decide),
   (C3_artifact_lifecycle "c" "int main()" "u1"
      ⟨"c", "gcc {file} -o {output} && {output}", "gcc:13"⟩
      ["/app/code/u1.c", "/app/code/u1.out", "/app/code/keep.txt"]
      (.ok ⟨"", ""⟩) rfl (by decide)).1 "" rfl
      "/app/code/u1.out" (by decide),
   ((C3_artifact_lifecycle "c" "int main()" "u2"
      ⟨"c", "gcc {file} -o {output} && {output}", "gcc:13"⟩
      ["/app/code/u2.c"] (.ok ⟨"", "warn"⟩) rfl (by decide)).2
      "Execution potentially failed. Stderr:\nwarn" rfl).1⟩

/-- C4: the claim is right and the code has a slip — `"toString"` is not
a catalog tag (`LANGUAGES_own "toString" = none`), yet POST /run
enqueues the job and answers 202, because the truthiness check
`!LANGUAGES[language]` finds the inherited `Object.prototype.toString`
function through the prototype chain of the object literal. -/
theorem C4_proto_language_enqueued :
    LANGUAGES_own "toString" = none ∧
    runHandler (.str "toString") (.str "x") = .accepted (.str "toString") (.str "x") :=
  ⟨rfl, rfl⟩

/-- C5: a Java job's artifact name is `<ClassName>.java` where ClassName
is the first capture of `public\s+class\s+([A-Za-z_][A-Za-z0-9_]*)` or
the literal `Main` when there is no match; any other job's artifact name
is the generated uuid followed by `.` and the descriptor's extension. -/
theorem C5_artifact_naming (language code id : String) (cfg : LangConfig)
    (hcfg : LANGUAGES_own language = some cfg) :
    (language = "java" →
      artifactName language code id cfg = javaClassName code ++ ".java" ∧
      (findClassName code.data = none → javaClassName code = "Main") ∧
      (∀ cs, findClassName code.data = some cs → javaClassName code = String.mk cs)) ∧
    (language ≠ "java" → artifactName language code id cfg = id ++ "." ++ cfg.ext) := by
  constructor
  · intro hl
    subst hl
    refine ⟨by simp [artifactName], ?_, ?_⟩
    · intro h
      simp [javaClassName, h]
    · intro cs h
      simp [javaClassName, h]
  · intro hl
    have hb : (language == "java") = false := beq_eq_false_iff_ne.mpr hl
    simp [artifactName, hb]

/-- Witness for C5: a Java job with an explicit class gets
`Greeter.java`, a Java job with no `public class` falls back to
`Main.java`, and a Python job gets `<uuid>.py`. -/
theorem C5_artifact_naming_witness :
    artifactName "java" "public class Greeter" "u3"
      ⟨"java", "javac {file} && java {classname}", "openjdk:17"⟩ = "Greeter.java" ∧
    artifactName "java" "x = 1" "u3"
      ⟨"java", "javac {file} && java {classname}", "openjdk:17"⟩ = "Main.java" ∧
    artifactName "python" "print(1)" "u4"
      ⟨"py", "python3 {file}", "python"⟩ = "u4.py" := by
  refine ⟨?_, ?_, ?_⟩
  · rw [((C5_artifact_naming "java" "public class Greeter" "u3" _ rfl).1 rfl).1]
    decide
  · rw [((C5_artifact_naming "java" "x = 1" "u3" _ rfl).1 rfl).1]
    decide
  · rw [(C5_artifact_naming "python" "print(1)" "u4" _ rfl).2 (by decide)]
    decide

theorem dot_java_split (cn : String) : cn ++ ".java" = cn ++ "." ++ "java" := by
  rw [String.append_assoc]
  rfl

theorem catalog_ext_nonjava (tag : String) (cfg : LangConfig)
    (h : LANGUAGES_own tag = some cfg) (hnj : tag ≠ "java") :
    cfg.ext = "c" ∨ cfg.ext = "cpp" ∨ cfg.ext = "py" ∨ cfg.ext = "js" := by
  rcases catalog_cases tag cfg h with ⟨_, rfl⟩ | ⟨_, rfl⟩ | ⟨_, rfl⟩ | ⟨hl, _⟩ | ⟨_, rfl⟩
  · exact Or.inl rfl
  · exact Or.inr (Or.inl rfl)
  · exact Or.inr (Or.inr (Or.inl rfl))
  · exact absurd hl hnj
  · exact Or.inr (Or.inr (Or.inr rfl))

/-- C6 (amended): two distinct active jobs with distinct generated uuids
receive distinct artifact names whenever they are not both Java
submissions; two Java submissions can collide when their extracted class
names coincide. -/
theorem C6_amended_distinct_names (l1 l2 c1 c2 id1 id2 : String) (cfg1 cfg2 : LangConfig)
    (h1 : LANGUAGES_own l1 = some cfg1) (h2 : LANGUAGES_own l2 = some cfg2)
    (hid : id1 ≠ id2) (hd1 : dotFreeStr id1 = true) (hd2 : dotFreeStr id2 = true)
    (hnj : ¬(l1 = "java" ∧ l2 = "java")) :
    artifactName l1 c1 id1 cfg1 ≠ artifactName l2 c2 id2 cfg2 := by
  by_cases hj1 : l1 = "java"
  · by_cases hj2 : l2 = "java"
    · exact absurd ⟨hj1, hj2⟩ hnj
    · subst hj1
      intro heq
      rw [show artifactName "java" c1 id1 cfg1 = javaClassName c1 ++ ".java" from by
            simp [artifactName],
          show artifactName l2 c2 id2 cfg2 = id2 ++ "." ++ cfg2.ext from by
            simp [artifactName, beq_eq_false_iff_ne.mpr hj2],
          dot_java_split] at heq
      obtain ⟨_, hext⟩ := name_dot_inj _ _ _ _
        (ident_dotFree _ (javaClassName_ident c1)) hd2 heq
      rcases catalog_ext_nonjava l2 cfg2 h2 hj2 with he | he | he | he <;>
        rw [← hext] at he <;> exact absurd he (by decide)
  · by_cases hj2 : l2 = "java"
    · subst hj2
      intro heq
      rw [show artifactName l1 c1 id1 cfg1 = id1 ++ "." ++ cfg1.ext from by
            simp [artifactName, beq_eq_false_iff_ne.mpr hj1],
          show artifactName "java" c2 id2 cfg2 = javaClassName c2 ++ ".java" from by
            simp [artifactName],
          dot_java_split] at heq
      obtain ⟨_, hext⟩ := name_dot_inj _ _ _ _ hd1
        (ident_dotFree _ (javaClassName_ident c2)) heq
      rcases catalog_ext_nonjava l1 cfg1 h1 hj1 with he | he | he | he <;>
        rw [hext] at he <;> exact absurd he (by decide)
    · intro heq
      rw [show artifactName l1 c1 id1 cfg1 = id1 ++ "." ++ cfg1.ext from by
            simp [artifactName, beq_eq_false_iff_ne.mpr hj1],
          show artifactName l2 c2 id2 cfg2 = id2 ++ "." ++ cfg2.ext from by
            simp [artifactName, beq_eq_false_iff_ne.mpr hj2]] at heq
      obtain ⟨hids, _⟩ := name_dot_inj _ _ _ _ hd1 hd2 heq
      exact hid hids

/-- C6: counterexample to the claim as stated — two distinct Java jobs
(distinct generated uuids, so distinct jobs) both declaring
`public class Main` receive the same artifact name, while the worker
pool admits at least two simultaneously active jobs. -/
theorem C6_java_collision_counterexample :
    artifactName "java" "public class Main" "11111111-1111-4111-8111-111111111111"
        ⟨"java", "javac {file} && java {classname}", "openjdk:17"⟩ =
      artifactName "java" "public class Main" "22222222-2222-4222-8222-222222222222"
        ⟨"java", "javac {file} && java {classname}", "openjdk:17"⟩ ∧
    ("11111111-1111-4111-8111-111111111111" : String) ≠
      "22222222-2222-4222-8222-222222222222" ∧
    2 ≤ WORKER_CONCURRENCY := by
  refine ⟨by decide, by decide, by decide⟩

/-- Witness for the amended C6: a C job and a Python job with distinct
uuids get distinct artifact names. -/
theorem C6_amended_distinct_names_witness :
    artifactName "c" "int main()" "aaaaaaaa-aaaa-4aaa-8aaa-aaaaaaaaaaaa"
        ⟨"c", "gcc {file} -o {output} && {output}", "gcc:13"⟩ ≠
      artifactName "python" "print(1)" "bbbbbbbb-bbbb-4bbb-8bbb-bbbbbbbbbbbb"
        ⟨"py", "python3 {file}", "python"⟩ :=
  C6_amended_distinct_names "c" "python" "int main()" "print(1)"
    "aaaaaaaa-aaaa-4aaa-8aaa-aaaaaaaaaaaa" "bbbbbbbb-bbbb-4bbb-8bbb-bbbbbbbbbbbb"
    ⟨"c", "gcc {file} -o {output} && {output}", "gcc:13"⟩
    ⟨"py", "python3 {file}", "python"⟩
    rfl rfl (by decide) (by decide) (by decide) (by decide)

/-- C7: template expansion replaces every occurrence of each bound
placeholder — in the C template both `{output}` occurrences are replaced
by the same binding (for binding values that do not themselves contain a
brace, as all produced bindings do). -/
theorem C7_template_expansion (f o cn : String)
    (hf : braceFreeStr f = true) (ho : braceFreeStr o = true) :
    formatCommand "gcc {file} -o {output} && {output}" f o cn =
      "gcc " ++ f ++ " -o " ++ o ++ " && " ++ o := by
  rw [show ("gcc {file} -o {output} && {output}" : String) =
      "gcc " ++ "{file} -o {output} && {output}" from rfl]
  exact formatCommand_gcc_like "gcc " (by decide) f o cn hf ho

/-- Witness for C7 at the bindings the worker produces. -/
theorem C7_template_expansion_witness :
    formatCommand "gcc {file} -o {output} && {output}" "/code/u5.c" "/code/u5.out" "Main" =
      "gcc /code/u5.c -o /code/u5.out && /code/u5.out" := by
  rw [C7_template_expansion "/code/u5.c" "/code/u5.out" "Main" (by decide) (by decide)]
  rfl

/-- C8: the sandbox invocation built by the worker is a one-shot
`docker run` with auto-removal, the 256m memory cap (256 MiB in the
runtime's binary units), the 0.5 vCPU quota, networking disabled, the
shared workspace volume mounted at /code with working directory /code,
the descriptor's image, and the expanded command run through
`sh -c "..."`. -/
theorem C8_docker_invocation (image cmd : String) :
    dockerCmd image cmd =
      "docker run --rm --memory=256m --cpus=0.5 --network=none" ++
        " -v code_execution_volume:/code -w /code " ++ image ++ " sh -c \"" ++ cmd ++ "\"" := by
  apply String.ext
  simp only [dockerCmd, dockerCmd.joinSpace, DOCKER_MEM_LIMIT, DOCKER_CPU_LIMIT, VOLUME_NAME,
    strData_append, List.append_assoc]
  rfl

/-- C9: for every submission, the string substituted for the
`{classname}` placeholder matches `[A-Za-z_][A-Za-z0-9_]*`: for Java it
is the regex capture or the literal `Main`, for other languages the
unused default `Main` — so it can never inject shell metacharacters into
the `sh -c` command string. -/
theorem C9_classname_identifier (language code : String) :
    isIdentStr (workerClassName language code) = true ∧
    isIdentStr (javaClassName code) = true :=
  ⟨workerClassName_ident language code, javaClassName_ident code⟩

/-- C10: a job accepted by POST /run carries a language whose catalog
lookup is truthy, so the worker's `LANGUAGES[language]` lookup is never
`undefined` and the unguarded field accesses cannot throw. -/
theorem C10_descriptor_defined (language code l c : JSValue)
    (h : runHandler language code = .accepted l c) :
    LANGUAGES_get (toPropertyKey l) ≠ .missing := by
  unfold runHandler at h
  split at h
  · exact absurd h (by simp)
  split at h
  · exact absurd h (by simp)
  rename_i hcond1 hcond2
  have hl : language = l := ((RunResponse.accepted.injEq _ _ _ _).mp h).1
  subst hl
  have h2' : (!truthyVal language
      || !catalogTruthy (LANGUAGES_get (toPropertyKey language))) = false := by
    simpa using hcond2
  have hct : catalogTruthy (LANGUAGES_get (toPropertyKey language)) = true := by
    rcases Bool.or_eq_false_iff.mp h2' with ⟨_, hb⟩
    simpa using hb
  intro hun
  rw [hun] at hct
  exact absurd hct (by decide)

/-- Witness for C10: the accepted Python submission resolves to a defined
descriptor. -/
theorem C10_descriptor_defined_witness :
    LANGUAGES_get (toPropertyKey (JSValue.str "python")) ≠ CatalogValue.missing :=
  C10_descriptor_defined (.str "python") (.str "print(1)") (.str "python") (.str "print(1)") rfl
